import Mathlib

/-!
Verification of the go-proxyproto connection wrapper (HAProxy PROXY protocol v1).

The development shallowly embeds the two connection wrappers of the repository:

* `protocol.go` — the `conn` type whose `checkPrefix` detects and parses a
  v1 text header (`PROXY <TCP4|TCP6> <src-ip> <dst-ip> <src-port> <dst-port>\r\n`)
  from a buffered view of the connection, plus its `Read` / `RemoteAddr` methods
  and the `newConn` constructor.
* the timeout variant (unnamed file, `Conn` with `ProxyHeaderTimeout`) — its
  `RemoteAddr`/`Read` once-guarded decode, whose header reading is delegated to
  an external library call; that call is kept abstract (an arbitrary outcome
  parameter), while the wrapper's own state transitions are embedded exactly.

A connection's byte stream is modelled as a finite `List Char` (the bytes the
peer sends before closing).  The buffered reader over a finite stream is the
remaining suffix of that list: `Peek` inspects without consuming, reads consume,
and exhaustion of the list is EOF from the wire.
-/

/-- Models Go `strings.Split(s, sep)` for a one-character separator:
splits on every occurrence, keeping empty fields. -/
def splitOn (sep : Char) : List Char → List (List Char)
  | [] => [[]]
  | c :: cs =>
    if c = sep then [] :: splitOn sep cs
    else
      match splitOn sep cs with
      | [] => [[c]]
      | h :: t => (c :: h) :: t

/-- Models `bufio.Reader.Peek(n)` over a finite stream: returns the first `n`
bytes without consuming them, or `none` (Go: a non-nil error, `io.EOF`) when
the stream holds fewer than `n` bytes. -/
def peek (buf : List Char) (n : Nat) : Option (List Char) :=
  if buf.length < n then none else some (buf.take n)

/-- Models `bufio.Reader.ReadString('\n')`: the consumed line including the
delimiter, and the rest of the stream.  `none` models the error case (EOF
before any `'\n'`); the caller in `checkPrefix` closes the connection and
discards its state on that path, so the partially-consumed bytes that Go
would also return are irrelevant there. -/
def readString : List Char → Option (List Char × List Char)
  | [] => none
  | c :: cs =>
    if c = '\n' then some ([c], cs)
    else
      match readString cs with
      | some (line, rest) => some (c :: line, rest)
      | none => none

/-- Decimal digit value of a character, if it is a digit. -/
def digitVal (c : Char) : Option Nat :=
  if '0' ≤ c ∧ c ≤ '9' then some (c.toNat - '0'.toNat) else none

/-- Value of a nonempty all-digit string; `none` on an empty string or any
non-digit character. -/
def parseDigits (l : List Char) : Option Nat :=
  match l with
  | [] => none
  | _ => l.foldl (fun acc c => acc.bind fun a => (digitVal c).map fun d => a * 10 + d) (some 0)

def int64Max : Int := 9223372036854775807

def int64Min : Int := -9223372036854775808

/-- Models Go `strconv.Atoi`: an optional sign followed by one or more decimal
digits, rejected when the value does not fit a 64-bit signed integer (Go's
`int` on the platforms the package targets). -/
def atoi (l : List Char) : Option Int :=
  let v? : Option Int :=
    match l with
    | '-' :: rest => (parseDigits rest).map fun n => -(Int.ofNat n)
    | '+' :: rest => (parseDigits rest).map Int.ofNat
    | _ => (parseDigits l).map Int.ofNat
  v?.bind fun v => if int64Min ≤ v ∧ v ≤ int64Max then some v else none

/-- One dotted-quad field: 1–3 decimal digits, value ≤ 255, no leading zero
(as in Go ≥ 1.17 `net.ParseIP`). -/
def parseOctet (l : List Char) : Option Nat :=
  match l with
  | [] => none
  | ['0'] => some 0
  | '0' :: _ :: _ => none
  | _ =>
    if l.length ≤ 3 then
      (parseDigits l).bind fun n => if n ≤ 255 then some n else none
    else none

/-- The four octets of a dotted-quad IPv4 literal. -/
def parseIPv4quad (l : List Char) : Option (Nat × Nat × Nat × Nat) :=
  match splitOn '.' l with
  | [a, b, c, d] =>
    match parseOctet a, parseOctet b, parseOctet c, parseOctet d with
    | some x, some y, some z, some w => some (x, y, z, w)
    | _, _, _, _ => none
  | _ => none

/-- An IP address as produced by the model of `net.ParseIP`: either four IPv4
octets or eight 16-bit IPv6 groups. -/
inductive IP where
  | v4 (a b c d : Nat)
  | v6 (groups : List Nat)
deriving DecidableEq, Repr

def parseIPv4 (l : List Char) : Option IP :=
  (parseIPv4quad l).map fun q => IP.v4 q.1 q.2.1 q.2.2.1 q.2.2.2

/-- Hexadecimal digit value of a character, if it is a hex digit. -/
def hexVal (c : Char) : Option Nat :=
  if '0' ≤ c ∧ c ≤ '9' then some (c.toNat - '0'.toNat)
  else if 'a' ≤ c ∧ c ≤ 'f' then some (c.toNat - 'a'.toNat + 10)
  else if 'A' ≤ c ∧ c ≤ 'F' then some (c.toNat - 'A'.toNat + 10)
  else none

/-- One IPv6 group: nonempty hex digits with value ≤ 0xFFFF. -/
def parseHexGroup (l : List Char) : Option Nat :=
  match l with
  | [] => none
  | _ =>
    (l.foldl (fun acc c => acc.bind fun a => (hexVal c).map fun d => a * 16 + d) (some 0)).bind
      fun n => if n ≤ 65535 then some n else none

/-- Hex groups only (used left of a `::`, where an embedded IPv4 suffix is not
allowed). -/
def parseHexGroups (gs : List (List Char)) : Option (List Nat) :=
  match gs with
  | [] => some []
  | g :: rest =>
    match parseHexGroup g, parseHexGroups rest with
    | some v, some vs => some (v :: vs)
    | _, _ => none

/-- Hex groups where the final group may instead be an embedded dotted-quad
IPv4 address (contributing two 16-bit groups), as at the end of an IPv6
literal. -/
def parseGroupListV4 (gs : List (List Char)) : Option (List Nat) :=
  match gs with
  | [] => some []
  | [g] =>
    if g.contains '.' then
      (parseIPv4quad g).map fun q => [q.1 * 256 + q.2.1, q.2.2.1 * 256 + q.2.2.2]
    else (parseHexGroup g).map fun v => [v]
  | g :: rest =>
    match parseHexGroup g, parseGroupListV4 rest with
    | some v, some vs => some (v :: vs)
    | _, _ => none

/-- Does the character list contain an adjacent `"::"`? -/
def containsDC : List Char → Bool
  | ':' :: ':' :: _ => true
  | _ :: rest => containsDC rest
  | [] => false

/-- Splits an IPv6 literal at its (unique) `"::"`, if present; `none` when
`"::"` occurs more than once. -/
def splitDC : List Char → Option (List Char × Option (List Char))
  | [] => some ([], none)
  | ':' :: ':' :: rest => if containsDC rest then none else some ([], some rest)
  | c :: rest =>
    match splitDC rest with
    | some (before, after) => some (c :: before, after)
    | none => none

/-- IPv6 text form: colon-separated 16-bit hex groups, at most one `"::"`
standing for one or more zero groups, optionally ending in an embedded
dotted-quad IPv4 address; exactly eight groups in total. -/
def parseIPv6 (l : List Char) : Option IP :=
  match splitDC l with
  | none => none
  | some (whole, none) =>
    (parseGroupListV4 (splitOn ':' whole)).bind fun gs =>
      if gs.length = 8 then some (IP.v6 gs) else none
  | some (before, some after) =>
    let lgs? := if before.isEmpty then some [] else parseHexGroups (splitOn ':' before)
    let rgs? := if after.isEmpty then some [] else parseGroupListV4 (splitOn ':' after)
    match lgs?, rgs? with
    | some lg, some rg =>
      if lg.length + rg.length ≤ 7 then
        some (IP.v6 (lg ++ List.replicate (8 - lg.length - rg.length) 0 ++ rg))
      else none
    | _, _ => none

/-- First `'.'` or `':'` in the string, whichever comes first. -/
def firstIPSep : List Char → Option Char
  | [] => none
  | c :: rest => if c = '.' ∨ c = ':' then some c else firstIPSep rest

/-- Models Go `net.ParseIP`: scan for the first `'.'` or `':'` and parse as a
dotted-quad IPv4 or an IPv6 literal accordingly; `none` (Go: a nil `net.IP`)
when neither separator occurs or the chosen parse fails. -/
def parseIP (l : List Char) : Option IP :=
  match firstIPSep l with
  | some c => if c = '.' then parseIPv4 l else parseIPv6 l
  | none => none

/-- Models `net.TCPAddr` as built by `checkPrefix`: the parsed IP and the
(unvalidated, possibly out-of-range) port from `strconv.Atoi`. -/
structure TCPAddr where
  ip : IP
  port : Int
deriving DecidableEq, Repr

/-- The errors `checkPrefix` can return: `eof` models `io.EOF` (from `Peek` or
`ReadString`), `closedConn` models the transport's use-of-closed-connection
error on reads after `Close`, and the remaining constructors model the
`fmt.Errorf` values of `checkPrefix`, carrying the offending field. -/
inductive Err where
  | eof
  | closedConn
  | invalidHeaderLine (h : List Char)
  | unhandledAddressType (t : List Char)
  | invalidSourceIP (s : List Char)
  | invalidSourcePort (s : List Char)
  | invalidDestinationIP (s : List Char)
  | invalidDestinationPort (s : List Char)
deriving DecidableEq, Repr

/-- State of `protocol.go`'s `conn`: the buffered reader's remaining view of
the finite stream, whether the underlying connection has been closed, the two
parsed addresses, and whether the `sync.Once` guarding `Read`'s decode has
fired. -/
structure Conn where
  buf : List Char
  closed : Bool
  srcAddr : Option TCPAddr
  dstAddr : Option TCPAddr
  onceFired : Bool
deriving DecidableEq, Repr

/-- Outcome of the incremental signature scan at the top of `checkPrefix`. -/
inductive ScanOutcome where
  | fullMatch
  | mismatch
  | eofShort
deriving DecidableEq, Repr

/-- The package-level signature variable: the 6 bytes `"PROXY "` looked for at
the start of a connection. -/
def proxySig : List Char := "PROXY ".data

/-- The loop `for i := 1; i <= len(sig); i++` of `checkPrefix`, fuel-counted so
that it reduces structurally: at each `i` it peeks `i` bytes (a peek failure is
the EOF outcome, returned as an error by `checkPrefix`) and compares them with
the first `i` signature bytes, quitting early on a mismatch. -/
def sigScanAux (buf : List Char) : Nat → Nat → ScanOutcome
  | _, 0 => ScanOutcome.fullMatch
  | i, fuel + 1 =>
    match peek buf i with
    | none => ScanOutcome.eofShort
    | some inp =>
      if inp = proxySig.take i then sigScanAux buf (i + 1) fuel
      else ScanOutcome.mismatch

def sigScan (buf : List Char) : ScanOutcome :=
  sigScanAux buf 1 proxySig.length

/-- Models `conn.checkPrefix` of `protocol.go` as a state transformer.  The
incremental signature scan peeks without consuming; a peek failure (EOF before
the signature can be ruled out) is returned as the error, without closing the
connection — the `TOOD` comment in the source marks exactly this path.  On a
full signature match the header line is consumed with `ReadString('\n')`, its
trailing `"\r\n"` stripped (the source slices off the last two bytes
unconditionally), the line split on single spaces into exactly 6 fields, the
transport token checked against `TCP4`/`TCP6`, and the two IPs and ports
parsed with `net.ParseIP` and `strconv.Atoi`; every failure after the
signature matched closes the underlying connection and reports the offending
field.  `srcAddr` is assigned before the destination fields are parsed, as in
the source. -/
def checkPrefix (p : Conn) : Conn × Option Err :=
  match sigScan p.buf with
  | ScanOutcome.eofShort => (p, some Err.eof)
  | ScanOutcome.mismatch => (p, none)
  | ScanOutcome.fullMatch =>
    match readString p.buf with
    | none => ({ p with buf := [], closed := true }, some Err.eof)
    | some (line, rest) =>
      let p1 : Conn := { p with buf := rest }
      let header := line.dropLast.dropLast
      let parts := splitOn ' ' header
      if parts.length ≠ 6 then ({ p1 with closed := true }, some (Err.invalidHeaderLine header))
      else
        let ty := parts.getD 1 []
        if ty = "TCP4".data ∨ ty = "TCP6".data then
          match parseIP (parts.getD 2 []) with
          | none => ({ p1 with closed := true }, some (Err.invalidSourceIP (parts.getD 2 [])))
          | some sip =>
            match atoi (parts.getD 4 []) with
            | none => ({ p1 with closed := true }, some (Err.invalidSourcePort (parts.getD 4 [])))
            | some sport =>
              let p2 : Conn := { p1 with srcAddr := some ⟨sip, sport⟩ }
              match parseIP (parts.getD 3 []) with
              | none => ({ p2 with closed := true }, some (Err.invalidDestinationIP (parts.getD 3 [])))
              | some dip =>
                match atoi (parts.getD 5 []) with
                | none => ({ p2 with closed := true }, some (Err.invalidDestinationPort (parts.getD 5 [])))
                | some dport => ({ p2 with dstAddr := some ⟨dip, dport⟩ }, none)
        else ({ p1 with closed := true }, some (Err.unhandledAddressType ty))

/-- The `conn` literal built at the top of `newConn`: a fresh buffered reader
over the whole stream, nothing parsed, the `sync.Once` not yet fired. -/
def initialConn (stream : List Char) : Conn :=
  { buf := stream, closed := false, srcAddr := none, dstAddr := none, onceFired := false }

/-- Models `newConn` of `protocol.go`: wrap the connection and immediately run
`checkPrefix`; an error aborts construction (the `Accept` caller then returns
it).  Note that this construction-time decode does not fire the `sync.Once`
that guards the decode in `Read`. -/
def newConn (stream : List Char) : Except Err Conn :=
  let r := checkPrefix (initialConn stream)
  match r.2 with
  | some e => Except.error e
  | none => Except.ok r.1

/-- Models `bufio.Reader.Read(b)` with `len(b) = n` over the finite stream:
up to `n` of the remaining bytes; on an exhausted stream, the transport error
(`closedConn` if the connection was closed, otherwise EOF). -/
def bufRead (p : Conn) (n : Nat) : Conn × Except Err (List Char) :=
  if p.buf.isEmpty then
    (p, Except.error (if p.closed then Err.closedConn else Err.eof))
  else
    ({ p with buf := p.buf.drop n }, Except.ok (p.buf.take n))

/-- Models `conn.Read` of `protocol.go`: `p.once.Do(func() { err = p.checkPrefix() })`
followed by `p.bufReader.Read(b)`; if the once-guarded decode returns an
error, `Read` returns it with zero bytes.  The `sync.Once` fires exactly once,
whether or not the decode fails; once it has fired the closure is skipped and
`err` stays nil. -/
def connRead (p : Conn) (n : Nat) : Conn × Except Err (List Char) :=
  if p.onceFired then bufRead p n
  else
    let r := checkPrefix p
    let p1 : Conn := { r.1 with onceFired := true }
    match r.2 with
    | some e => (p1, Except.error e)
    | none => bufRead p1 n

/-- The address returned by a wrapper's `RemoteAddr`: an address built from a
parsed header (TCP or, in the timeout variant, UDP), or the transport-level
peer address of the underlying socket. -/
inductive RAddr where
  | fromHeader (a : TCPAddr)
  | udpFromHeader (ip : IP) (port : Int)
  | transportPeer
deriving DecidableEq, Repr

/-- Models `conn.RemoteAddr` of `protocol.go`: the parsed source address when
one was stored, otherwise the underlying connection's peer address.  This
method performs no decoding. -/
def connRemoteAddr (p : Conn) : RAddr :=
  match p.srcAddr with
  | some a => RAddr.fromHeader a
  | none => RAddr.transportPeer

/-- Command nibble of a header produced by the external header-reading
library used by the timeout variant (`LOCAL` vs `PROXY`). -/
inductive PCommand where
  | localCmd
  | proxyCmd
deriving DecidableEq, Repr

/-- Transport nibble of such a header: `IsStream`, `IsDatagram`, or neither. -/
inductive PTransport where
  | unspec
  | stream
  | datagram
deriving DecidableEq, Repr

/-- The header value the external library hands back on success: the fields
the timeout variant's `RemoteAddr` inspects. -/
structure PHeader where
  command : PCommand
  transport : PTransport
  sourceAddress : IP
  sourcePort : Nat
deriving DecidableEq, Repr

/-- Errors from the external header read: the sentinel `ErrNoProxyProtocol`
(compared by identity in the wrapper, and not a failure), or any other error. -/
inductive PErr where
  | noProxyProtocol
  | other (s : String)
deriving DecidableEq, Repr

/-- State of the timeout variant's `Conn`: the buffered reader's view of the
stream, whether the underlying connection is closed, the cached header, and
whether the `sync.Once` has fired. -/
structure PConn where
  bufBuffered : List Char
  closed : Bool
  header : Option PHeader
  onceFired : Bool
deriving DecidableEq, Repr

/-- Models the assignment `p.header, err = proto.ReadTimeout(p.bufReader, ...)`
inside `checkHeader`: the external call's outcome is a parameter (the library
is outside this repository); on success the header is stored, on error it is
nil, and in both cases the buffered reader has advanced to whatever the
external read left (`rest`). -/
def applyCheckHeader (c : PConn) (outcome : Except PErr PHeader) (rest : List Char) : PConn :=
  match outcome with
  | Except.ok h => { c with header := some h, bufBuffered := rest }
  | Except.error _ => { c with header := none, bufBuffered := rest }

/-- The address the timeout variant's `RemoteAddr` returns given the current
state: a TCP address from the header when the header is present with a PROXY
command and a stream transport, a UDP address for a datagram transport, and
otherwise the transport-level peer address. -/
def pAddrOf (c : PConn) (peer : RAddr) : RAddr :=
  match c.header with
  | some h =>
    if h.command = PCommand.proxyCmd then
      if h.transport = PTransport.stream then
        RAddr.fromHeader ⟨h.sourceAddress, Int.ofNat h.sourcePort⟩
      else if h.transport = PTransport.datagram then
        RAddr.udpFromHeader h.sourceAddress (Int.ofNat h.sourcePort)
      else peer
    else peer
  | none => peer

/-- Models the timeout variant's `Conn.RemoteAddr`: under the `sync.Once`, run
`checkHeader` (outcome abstracted as a parameter); when it fails with anything
other than `ErrNoProxyProtocol`, log, `Close()` the connection and replace the
buffered reader with `bufio.NewReader(p.conn)` — a fresh, empty buffer over
the now-closed connection.  Then return the address selected from the (possibly
absent) header.  The method's return type carries no error. -/
def pRemoteAddr (c : PConn) (outcome : Except PErr PHeader) (rest : List Char) (peer : RAddr) :
    PConn × RAddr :=
  let c1 :=
    if c.onceFired then c
    else
      let c2 : PConn := { applyCheckHeader c outcome rest with onceFired := true }
      match outcome with
      | Except.ok _ => c2
      | Except.error e =>
        if e = PErr.noProxyProtocol then c2
        else { c2 with closed := true, bufBuffered := [] }
  (c1, pAddrOf c1 peer)

/-- Errors a read on the timeout variant can surface: a decode error from the
once-guarded `checkHeader`, EOF from an exhausted stream, or the transport's
use-of-closed-connection error. -/
inductive PReadErr where
  | decode (e : PErr)
  | eof
  | useOfClosedConn
deriving DecidableEq, Repr

/-- Models `bufio.Reader.Read` for the timeout variant's buffered front end:
bytes from the buffer while it is nonempty; on an empty buffer, the transport
error (closed connection) or EOF. -/
def pBufRead (c : PConn) (n : Nat) : PConn × Except PReadErr (List Char) :=
  if c.bufBuffered.isEmpty then
    (c, Except.error (if c.closed then PReadErr.useOfClosedConn else PReadErr.eof))
  else
    ({ c with bufBuffered := c.bufBuffered.drop n }, Except.ok (c.bufBuffered.take n))

/-- Models the timeout variant's `Conn.Read`: under the `sync.Once`, run
`checkHeader` (outcome abstracted); `ErrNoProxyProtocol` is only logged and
the read proceeds from the buffer, any other error is returned with zero bytes
— without closing the connection.  Once the guard has fired, reads go straight
to the buffer. -/
def pRead (c : PConn) (outcome : Except PErr PHeader) (rest : List Char) (n : Nat) :
    PConn × Except PReadErr (List Char) :=
  if c.onceFired then pBufRead c n
  else
    let c2 : PConn := { applyCheckHeader c outcome rest with onceFired := true }
    match outcome with
    | Except.ok _ => pBufRead c2 n
    | Except.error e =>
      if e = PErr.noProxyProtocol then pBufRead c2 n
      else (c2, Except.error (PReadErr.decode e))

/-- The observable effects of the timeout handling at the top of the timeout
variant's `Conn.checkHeader`: whether a read deadline was set on the underlying
connection (and, by the deferred call, cleared afterwards), the timeout value
passed to the external header-reading routine, and the value left in the
`proxyHeaderTimeout` field.  Durations are in nanoseconds, as in Go's
`time.Duration`. -/
structure CheckHeaderTimeoutEffect where
  deadlineSet : Bool
  deadlineCleared : Bool
  timeoutPassedToRead : Nat
  storedTimeoutAfter : Nat
deriving DecidableEq, Repr

/-- Models `Conn.checkHeader`'s timeout logic: a read deadline is set (and
deferred-cleared) only when the configured timeout is nonzero; afterwards, a
configured zero timeout is replaced by the internal 50 ms
(`50 * time.Millisecond` = 50000000 ns) before being passed to the external
header-reading routine. -/
def checkHeaderTimeoutEffect (configured : Nat) : CheckHeaderTimeoutEffect :=
  let setsDeadline := configured != 0
  let effective := if configured = 0 then 50000000 else configured
  { deadlineSet := setsDeadline
    deadlineCleared := setsDeadline
    timeoutPassedToRead := effective
    storedTimeoutAfter := effective }

/-- Claim C1 (code bug): the spec requires that a peer sending fewer bytes
than the 6-byte v1 signature and then closing is reported as "no header
present" rather than an error, but `checkPrefix` returns the EOF error from
`Peek` — the path the source's own `TOOD` comment marks as wrong.  Evaluated
at the 1-byte stream `"P"` followed by EOF: construction fails with `io.EOF`
instead of yielding a header-less connection. -/
theorem newConn_eof_on_one_byte_payload :
    newConn ['P'] = Except.error Err.eof := by rfl

/-- Claim C2 (confirmed): for the stream consisting of the exact v1 header
line `PROXY TCP4 10.1.1.1 20.2.2.2 1000 2000\r\n` followed by `ping`, the
constructed connection's buffered view holds exactly `ping` (reads only serve
from that view, so no header byte can ever be delivered), `RemoteAddr` returns
the parsed TCP address 10.1.1.1 port 1000, and a read yields exactly `ping`,
leaving the buffer empty. -/
theorem v1_header_then_ping_roundtrip :
    (newConn ("PROXY TCP4 10.1.1.1 20.2.2.2 1000 2000\r\nping").data).map
      (fun c => (c.buf, connRemoteAddr c, (connRead c 4).2, (connRead c 4).1.buf))
      = Except.ok ("ping".data, RAddr.fromHeader ⟨IP.v4 10 1 1 1, 1000⟩,
          Except.ok "ping".data, []) := by rfl

/-- Claim C3 (code bug): the spec requires that any stream not beginning with
the v1 signature be passed through untouched, with reads returning the
original bytes; but for the stream `"PROX"` followed by EOF — which does not
begin with the signature — `checkPrefix` returns the EOF error from `Peek`
(the source's `TOOD` comment path), so the wrapper never delivers the bytes at
all. -/
theorem newConn_eof_on_partial_signature :
    newConn "PROX".data = Except.error Err.eof := by rfl

/-- Claim C4 (code bug): the spec requires the decode to be deferred past
construction and to run exactly once, but `newConn` runs `checkPrefix` at
construction without firing the `sync.Once`, so the first `Read` decodes a
second time.  Evaluated on a stream carrying two v1 header lines and then
`ping`: construction already stores the first source address (10.1.1.1:1000),
and the first read consumes the entire second header — overwriting the source
address with 9.9.9.9:6 — before returning `ping`. -/
theorem decode_at_construction_and_second_header_consumed :
    (newConn ("PROXY TCP4 10.1.1.1 20.2.2.2 1000 2000\r\nPROXY TCP4 9.9.9.9 8.8.8.8 6 7\r\nping").data).map
      (fun c => (c.srcAddr, (connRead c 4).2, (connRead c 4).1.srcAddr))
      = Except.ok (some ⟨IP.v4 10 1 1 1, 1000⟩, Except.ok "ping".data,
          some ⟨IP.v4 9 9 9 9, 6⟩) := by rfl

/-- Claim C5, counterexample: a v1 header whose source-port field is `70000`
— outside `[0, 65535]` — is not a fatal parse error: construction succeeds,
the connection is not closed, and the out-of-range port is stored as given. -/
theorem out_of_range_port_accepted :
    (newConn ("PROXY TCP4 1.1.1.1 2.2.2.2 70000 2000\r\n").data).map
      (fun c => (c.srcAddr, c.closed))
      = Except.ok (some ⟨IP.v4 1 1 1 1, 70000⟩, false) := by rfl

/-- Claim C5, amended: port fields are parsed with `strconv.Atoi` and no
`[0, 65535]` range check is applied — a non-numeric port field (here `x`) is a
fatal parse error that closes the underlying connection, while any integer
the parser accepts, including the negative `-1`, is stored as given without
error. -/
theorem port_fields_atoi_no_range_check :
    ( checkPrefix (initialConn ("PROXY TCP4 1.1.1.1 2.2.2.2 x 2000\r\n").data)).1.closed = true ∧
    ( checkPrefix (initialConn ("PROXY TCP4 1.1.1.1 2.2.2.2 x 2000\r\n").data)).2
      = some (Err.invalidSourcePort "x".data) ∧
    (newConn ("PROXY TCP4 1.1.1.1 2.2.2.2 -1 2000\r\n").data).map
      (fun c => (c.srcAddr, c.closed))
      = Except.ok (some ⟨IP.v4 1 1 1 1, -1⟩, false) := ⟨rfl, rfl, rfl⟩

/-- Claim C6, counterexample: under the transport token `TCP4`, the
syntactically valid IPv6 literal `::1` as source IP is not a fatal parse
error: construction succeeds, the connection stays open, and the
wrong-family address is stored. -/
theorem wrong_family_ip_accepted :
    (newConn ("PROXY TCP4 ::1 2.2.2.2 1000 2000\r\n").data).map
      (fun c => (c.srcAddr, c.closed))
      = Except.ok (some ⟨IP.v6 [0, 0, 0, 0, 0, 0, 0, 1], 1000⟩, false) := by rfl

/-- Claim C6, amended: IP fields are parsed with `net.ParseIP` and must be
valid literals of either family — an unparseable source IP (here `what`) is a
fatal parse error that closes the underlying connection, but the family is
never checked against the transport token, so an IPv4 literal under `TCP6` is
accepted without error. -/
theorem ip_fields_family_unchecked :
    ( checkPrefix (initialConn ("PROXY TCP4 what 2.2.2.2 1000 2000\r\n").data)).1.closed = true ∧
    ( checkPrefix (initialConn ("PROXY TCP4 what 2.2.2.2 1000 2000\r\n").data)).2
      = some (Err.invalidSourceIP "what".data) ∧
    (newConn ("PROXY TCP6 1.2.3.4 ::2 1000 2000\r\n").data).map
      (fun c => (c.srcAddr, c.closed))
      = Except.ok (some ⟨IP.v4 1 2 3 4, 1000⟩, false) := ⟨rfl, rfl, rfl⟩

/-- Claim C7 (confirmed): in the timeout variant, when the once-guarded decode
triggered by `RemoteAddr` fails with any error other than the no-header
sentinel, the underlying connection is closed and the call still returns the
transport-level peer address; the method's return type carries no error, so
the decode failure is never raised through this call. -/
theorem remoteAddr_fatal_decode_fallback (c : PConn) (e : PErr) (rest : List Char) (peer : RAddr)
    (hOnce : c.onceFired = false) (hFatal : e ≠ PErr.noProxyProtocol) :
    (pRemoteAddr c (Except.error e) rest peer).1.closed = true ∧
    (pRemoteAddr c (Except.error e) rest peer).2 = peer := by
  simp [pRemoteAddr, applyCheckHeader, pAddrOf, hOnce, hFatal]

/-- Witness for `remoteAddr_fatal_decode_fallback` at a concrete connection
state, decode error, and peer address. -/
theorem remoteAddr_fatal_decode_fallback_witness :
    (PConn.mk "leftover".data false none false).onceFired = false ∧
    PErr.other "bad header" ≠ PErr.noProxyProtocol ∧
    ((pRemoteAddr (PConn.mk "leftover".data false none false)
        (Except.error (PErr.other "bad header")) [] RAddr.transportPeer).1.closed = true ∧
      (pRemoteAddr (PConn.mk "leftover".data false none false)
        (Except.error (PErr.other "bad header")) [] RAddr.transportPeer).2 = RAddr.transportPeer) :=
  ⟨rfl, by decide, remoteAddr_fatal_decode_fallback _ _ _ _ rfl (by decide)⟩

/-- Claim C8, counterexample: on the stream made of a valid v1 header, a
malformed v1 header (source port `x`), and the payload `hi`, the first read's
decode fails and closes the connection — yet the very next read succeeds,
returning `hi` from the buffer, contradicting the claim that every subsequent
operation fails with a closed-connection error. -/
theorem read_after_fatal_decode_can_succeed :
    (newConn ("PROXY TCP4 10.1.1.1 20.2.2.2 1000 2000\r\nPROXY TCP4 1.1.1.1 2.2.2.2 x 2\r\nhi").data).map
      (fun c =>
        let r1 := connRead c 2
        let r2 := connRead r1.1 2
        (r1.2, r1.1.closed, r2.2))
      = Except.ok (Except.error (Err.invalidSourcePort "x".data), true, Except.ok "hi".data) := by
  rfl

/-- Claim C8, amended: when the decode run by a read fails on a malformed
header, the read returns that error with zero bytes and the parser has closed
the underlying connection; the parse error is never repeated, but subsequent
reads first drain whatever the buffered reader already holds and only fail
with the transport's closed-connection error once the buffer is empty — as on
the stream of a valid header, a malformed header, and `hi`: the reads return
the parse error, then `hi`, then the closed-connection error. -/
theorem read_fatal_decode_drains_buffer_then_closed_error :
    (newConn ("PROXY TCP4 10.1.1.1 20.2.2.2 1000 2000\r\nPROXY TCP4 1.1.1.1 2.2.2.2 x 2\r\nhi").data).map
      (fun c =>
        let r1 := connRead c 2
        let r2 := connRead r1.1 2
        let r3 := connRead r2.1 2
        (r1.2, r1.1.closed, r2.2, r3.2))
      = Except.ok (Except.error (Err.invalidSourcePort "x".data), true, Except.ok "hi".data,
          Except.error Err.closedConn) := by rfl

/-- Claim C9 (confirmed): in the timeout variant, a configured
`ProxyHeaderTimeout` of zero makes `checkHeader` substitute the internal 50 ms
timeout (50000000 ns) and pass it to the header-reading routine, while no read
deadline is set on — or cleared from — the underlying connection. -/
theorem checkHeader_zero_timeout_effect :
    checkHeaderTimeoutEffect 0 =
      { deadlineSet := false
        deadlineCleared := false
        timeoutPassedToRead := 50000000
        storedTimeoutAfter := 50000000 } := by rfl

/-- Claim C10 (confirmed): in the timeout variant, when the decode triggered
by `RemoteAddr` fails fatally, the connection is closed and the buffered front
end is replaced by a fresh empty reader over the closed connection, so
whatever bytes were buffered before the failure are discarded: the buffer is
empty afterwards, and any subsequent read fails with the closed-connection
error instead of delivering them. -/
theorem remoteAddr_fatal_discards_buffered_bytes (buffered rest : List Char) (e : PErr)
    (peer : RAddr) (n : Nat) (hFatal : e ≠ PErr.noProxyProtocol) :
    (pRemoteAddr ⟨buffered, false, none, false⟩ (Except.error e) rest peer).1.bufBuffered = [] ∧
    (pRead (pRemoteAddr ⟨buffered, false, none, false⟩ (Except.error e) rest peer).1
        (Except.error e) rest n).2 = Except.error PReadErr.useOfClosedConn := by
  simp [pRemoteAddr, applyCheckHeader, pRead, pBufRead, hFatal]

/-- Witness for `remoteAddr_fatal_discards_buffered_bytes` at concrete
buffered bytes, decode error, peer address and read size. -/
theorem remoteAddr_fatal_discards_buffered_bytes_witness :
    PErr.other "timeout" ≠ PErr.noProxyProtocol ∧
    ((pRemoteAddr ⟨"stale".data, false, none, false⟩ (Except.error (PErr.other "timeout"))
        "rs".data RAddr.transportPeer).1.bufBuffered = [] ∧
      (pRead (pRemoteAddr ⟨"stale".data, false, none, false⟩ (Except.error (PErr.other "timeout"))
          "rs".data RAddr.transportPeer).1 (Except.error (PErr.other "timeout")) "rs".data 3).2
        = Except.error PReadErr.useOfClosedConn) :=
  ⟨by decide, remoteAddr_fatal_discards_buffered_bytes _ _ _ _ _ (by decide)⟩
